import Mathlib

/-!
Verification of the ThreeJsStudio repository's scene-composition layer and
card-deck utility against its natural-language specification.

The development is a shallow embedding: pure TypeScript functions become Lean
functions, stateful code becomes explicit state passing, JS `Map`s become
association lists, randomness (`Math.random()`) becomes an explicit stream
parameter, and fallible code returns `Except`.  Numeric fields are modelled
with `Rat` (exact arithmetic mirrors the exact assignments and divisions the
claims are about) and hex colors with `Nat`.
-/

/- ----------------------------------------------------------------- -/
/- Card deck: src/libs/share/three-utils/src/lib/card-deck           -/
/- ----------------------------------------------------------------- -/

/-- `Card['suit']` union type from models/card.ts. -/
inductive Suit
  | Diamonds
  | Spades
  | Hearts
  | Clubs
deriving DecidableEq, Repr, Fintype

/-- `Card['value']` union type from models/card.ts
(string literals `2`..`10`, `Jack`, `Queen`, `King`, `Ace`). -/
inductive Value
  | v2 | v3 | v4 | v5 | v6 | v7 | v8 | v9 | v10
  | Jack | Queen | King | Ace
deriving DecidableEq, Repr, Fintype

/-- `Card['color']` union type from models/card.ts. -/
inductive CardColor
  | Red
  | Black
deriving DecidableEq, Repr, Fintype

/-- The `Card` record from models/card.ts.  The `getPlayValue` method is the
same closure for every card and is modelled as the standalone function
`getPlayValue` below. -/
structure Card where
  suit : Suit
  value : Value
  color : CardColor
deriving DecidableEq, Repr

/-- `suits` constant from models/card.ts. -/
def suits : List Suit :=
  [Suit.Diamonds, Suit.Spades, Suit.Hearts, Suit.Clubs]

/-- `values` constant from models/card.ts. -/
def values : List Value :=
  [Value.v2, Value.v3, Value.v4, Value.v5, Value.v6, Value.v7, Value.v8,
   Value.v9, Value.v10, Value.Jack, Value.Queen, Value.King, Value.Ace]

/-- The `getPlayValue` method of `Card` (card-deck.ts): face cards are 10,
Ace is 1, numeric values parse to themselves. -/
def getPlayValue (c : Card) : Nat :=
  match c.value with
  | Value.Jack => 10
  | Value.Queen => 10
  | Value.King => 10
  | Value.Ace => 1
  | Value.v2 => 2
  | Value.v3 => 3
  | Value.v4 => 4
  | Value.v5 => 5
  | Value.v6 => 6
  | Value.v7 => 7
  | Value.v8 => 8
  | Value.v9 => 9
  | Value.v10 => 10

/-- `createDeck` from card-deck.ts: one card per (suit, value) pair via
`suits.flatMap(suit => values.map(value => ...))`; color is Red exactly for
Hearts and Diamonds.  The final `[...deck]` spread copies the array, which is
the identity on the list value. -/
def createDeck : List Card :=
  suits.flatMap fun suit =>
    values.map fun value =>
      { suit := suit
        value := value
        color :=
          if suit = Suit.Hearts ∨ suit = Suit.Diamonds then CardColor.Red
          else CardColor.Black }

/-- Modelled from the spec: the domain-specific exception thrown
synchronously when drawing or peeking from an exhausted deck (the spec's
`EmptyDeckError`).  The class itself lives in
card-deck/errors/card-deck-error.ts, which is not among the provided source
files; card-deck.ts imports it as `CardDeckError` and constructs it from a
message string. -/
structure CardDeckError where
  message : String
deriving DecidableEq, Repr

/-- `drawCard` from card-deck.ts: throws on an empty deck, otherwise
`deck.pop()` removes and returns the last card (`Card | undefined` is
`Option Card`). -/
def drawCard (deck : List Card) : Except CardDeckError (Option Card × List Card) :=
  if deck.length = 0 then
    Except.error { message := "Cannot draw a card from an empty deck." }
  else
    Except.ok (deck.getLast?, deck.dropLast)

/-- `peekCard` from card-deck.ts: throws on an empty deck, otherwise returns
`deck[deck.length - 1]` without modifying the deck. -/
def peekCard (deck : List Card) : Except CardDeckError Card :=
  if h : deck.length = 0 then
    Except.error { message := "Cannot peek a card from an empty deck." }
  else
    Except.ok (deck.getLast (by
      intro hnil
      exact h (by simp [hnil])))

/-- The `ShuffleAlgorithm` union type from utils/shuffler.ts. -/
inductive ShuffleAlgorithm
  | fisherYates
  | riffle
deriving DecidableEq, Repr

/-- The destructuring swap `[deck[i], deck[j]] = [deck[j], deck[i]]` from
`fisherYatesShuffle`.  Both indices are in range at every call site; the
fallback branch is unreachable there. -/
def swapIdx (deck : List Card) (i j : Nat) : List Card :=
  match deck[i]?, deck[j]? with
  | some a, some b => (deck.set i b).set j a
  | _, _ => deck

/-- The `for (let i = deck.length - 1; i > 0; i--)` loop of
`fisherYatesShuffle`: at index `i` it swaps with `j = floor(random * (i+1))`,
modelled by an explicit stream `rand` reduced into range `[0, i]`. -/
def fyLoop (rand : Nat → Nat) : Nat → List Card → List Card
  | 0, deck => deck
  | i + 1, deck => fyLoop rand i (swapIdx deck (i + 1) (rand (i + 1) % (i + 2)))

/-- `fisherYatesShuffle` from utils/shuffler.ts. -/
def fisherYatesShuffle (rand : Nat → Nat) (deck : List Card) : List Card :=
  fyLoop rand (deck.length - 1) deck

/-- The `while (left.length || right.length)` loop of `riffleShuffle`.
Each iteration moves the head of `left` when the coin for that iteration
lands above 0.5 (`coin k = true`), then always moves the head of `right`
when nonempty.  When `right` is exhausted the loop spins until the coin
cooperates, so the JS loop has no termination bound; `fuel` makes the model
total, returning `none` where the JS loop would still be running. -/
def riffleLoop (coin : Nat → Bool) :
    Nat → Nat → List Card → List Card → List Card → Option (List Card)
  | 0, _, _, _, _ => none
  | fuel + 1, k, left, right, shuffled =>
    if left.isEmpty ∧ right.isEmpty then some shuffled
    else
      let step1 :=
        match left, coin k with
        | x :: rest, true => (rest, shuffled ++ [x])
        | _, _ => (left, shuffled)
      let step2 :=
        match right with
        | y :: rest => (rest, step1.2 ++ [y])
        | [] => (right, step1.2)
      riffleLoop coin fuel (k + 1) step1.1 step2.1 step2.2

/-- `riffleShuffle` from utils/shuffler.ts: cuts the deck at
`floor(length / 2)` into two copies (`slice`) and interleaves them into a
fresh `shuffled` array.  The input `deck` is never mutated (`shift` acts on
the copies). -/
def riffleShuffle (coin : Nat → Bool) (fuel : Nat) (deck : List Card) :
    Option (List Card) :=
  let cut := deck.length / 2
  riffleLoop coin fuel 0 (deck.take cut) (deck.drop cut) []

/-- `shuffle` from card-deck.ts.  The module-level mutable
`shuffleAlgorithm` (written by `setShuffleAlgorithm`) is passed explicitly.
In the 'fisher-yates' branch the deck is permuted in place and returned; in
the 'riffle' branch `riffleShuffle(deck)`'s fresh array is discarded and the
untouched `deck` is returned. -/
def shuffle (shuffleAlgorithm : ShuffleAlgorithm) (rand : Nat → Nat)
    (coin : Nat → Bool) (fuel : Nat) (deck : List Card) : List Card :=
  match shuffleAlgorithm with
  | ShuffleAlgorithm.fisherYates => fisherYatesShuffle rand deck
  | ShuffleAlgorithm.riffle =>
    let _discarded := riffleShuffle coin fuel deck
    deck

/- ----------------------------------------------------------------- -/
/- Lights: src/libs/share/three-utils/src/lib/three-js-items/light.ts -/
/- ----------------------------------------------------------------- -/

/-- `lightTypeEnum` from light.ts. -/
inductive lightTypeEnum
  | Ambient
  | Directional
  | Hemisphere
  | Point
  | RectArea
  | Spot
  | Unknown
deriving DecidableEq, Repr

/-- `lightConfig` from light.ts.  Hex colors are `Nat`, other numbers `Rat`;
optional fields are `Option`. -/
structure lightConfig where
  type : lightTypeEnum
  color : Nat
  intensity : Rat
  position : List Rat
  skyColor : Option Nat := none
  groundColor : Option Nat := none
  width : Option Rat := none
  height : Option Rat := none
deriving DecidableEq, Repr

/-- `THREE.Vector3` as used for light/camera positions. -/
structure Vec3 where
  x : Rat
  y : Rat
  z : Rat
deriving DecidableEq, Repr

/-- A constructed three.js light object.  `kind` plays the role of the
runtime class (`instanceof` checks become `kind = _`).  For a
`HemisphereLight`, `color` is the sky-color channel, exactly as in three.js;
`groundColor` is meaningful only there, and `width`/`height` only for a
`RectAreaLight`.  Shadow-map sizes and shadow-camera planes set by
`configureShadow` are not observable through any claimed operation and are
not carried. -/
structure ThreeLightObj where
  kind : lightTypeEnum
  color : Nat
  groundColor : Nat
  intensity : Rat
  position : Vec3
  width : Rat
  height : Rat
  visible : Bool
  castShadow : Bool
deriving DecidableEq, Repr

/-- `new THREE.Vector3(position[0], position[1], position[2])`. -/
def vec3OfList (p : List Rat) : Vec3 :=
  { x := p.getD 0 0, y := p.getD 1 0, z := p.getD 2 0 }

/-- The zod `lightConfigSchema` check performed by `safeParse`: all fields
are well typed by construction; the only data-dependent constraint is
`position: z.array(z.number()).length(3)`. -/
def lightConfigValid (cf : lightConfig) : Bool :=
  cf.position.length = 3

/-- `createLight` from light.ts (final variant): throws on schema violation,
then dispatches on the configured kind.  The per-kind factory functions
(`createAmbientLight`, ..., `createSpotLight`) are inlined; three.js
constructs lights with `visible = true` at position zero, the Directional /
Point / Spot factories then set the position from the config, and every
factory except the Point one sets `castShadow = true`.  An `Unknown` kind
falls through to `undefined`. -/
def createLight (cf : lightConfig) : Except String (Option ThreeLightObj) :=
  if ¬lightConfigValid cf then Except.error "Invalid light configuration"
  else
    match cf.type with
    | lightTypeEnum.Ambient =>
      Except.ok (some
        { kind := lightTypeEnum.Ambient, color := cf.color, groundColor := 0
          intensity := cf.intensity, position := { x := 0, y := 0, z := 0 }
          width := 1, height := 1, visible := true, castShadow := true })
    | lightTypeEnum.Directional =>
      Except.ok (some
        { kind := lightTypeEnum.Directional, color := cf.color, groundColor := 0
          intensity := cf.intensity, position := vec3OfList cf.position
          width := 1, height := 1, visible := true, castShadow := true })
    | lightTypeEnum.Hemisphere =>
      Except.ok (some
        { kind := lightTypeEnum.Hemisphere
          color := cf.skyColor.getD cf.color
          groundColor := cf.groundColor.getD cf.color
          intensity := cf.intensity, position := { x := 0, y := 0, z := 0 }
          width := 1, height := 1, visible := true, castShadow := true })
    | lightTypeEnum.Point =>
      Except.ok (some
        { kind := lightTypeEnum.Point, color := cf.color, groundColor := 0
          intensity := cf.intensity, position := vec3OfList cf.position
          width := 1, height := 1, visible := true, castShadow := false })
    | lightTypeEnum.RectArea =>
      Except.ok (some
        { kind := lightTypeEnum.RectArea, color := cf.color, groundColor := 0
          intensity := cf.intensity, position := { x := 0, y := 0, z := 0 }
          width := cf.width.getD 1, height := cf.height.getD 1
          visible := true, castShadow := true })
    | lightTypeEnum.Spot =>
      Except.ok (some
        { kind := lightTypeEnum.Spot, color := cf.color, groundColor := 0
          intensity := cf.intensity, position := vec3OfList cf.position
          width := 1, height := 1, visible := true, castShadow := true })
    | lightTypeEnum.Unknown => Except.ok none

/-- `Light.configureShadow`: for `PointLight` / `SpotLight` instances it
enables `castShadow` (the shadow-map size and shadow-camera planes it also
sets are not carried, see `ThreeLightObj`). -/
def configureShadow (l : Option ThreeLightObj) : Option ThreeLightObj :=
  l.map fun obj =>
    if obj.kind = lightTypeEnum.Point ∨ obj.kind = lightTypeEnum.Spot then
      { obj with castShadow := true }
    else obj

/-- `Light.setLightPosition` acting on the underlying object: the
`instanceof` guard lists all six concrete light classes, so any constructed
light gets its position set. -/
def setLightPositionObj (l : Option ThreeLightObj) (p : Vec3) : Option ThreeLightObj :=
  l.map fun obj => { obj with position := p }

/-- A three.js light-helper object; only its visibility is observable
through the claimed operations. -/
structure LightHelper where
  visible : Bool
deriving DecidableEq, Repr

/-- `Light.#createHelper`: Directional / Point / Spot / Hemisphere lights
get a helper (constructed visible), other kinds (and a missing light) do
not. -/
def createHelper (l : Option ThreeLightObj) : Option LightHelper :=
  match l with
  | none => none
  | some obj =>
    if obj.kind = lightTypeEnum.Directional ∨ obj.kind = lightTypeEnum.Point
        ∨ obj.kind = lightTypeEnum.Spot ∨ obj.kind = lightTypeEnum.Hemisphere then
      some { visible := true }
    else none

/-- The state of a `Light` class instance: `#config`, `#light`, `#helper`. -/
structure Light where
  config : lightConfig
  light : Option ThreeLightObj
  helper : Option LightHelper
deriving DecidableEq, Repr

/-- The `Light` constructor: stores the config, builds the underlying light
via `createLight` (propagating its synchronous throw), runs
`configureShadow`, sets the position when the config's position has length
3, and builds the helper. -/
def Light.create (config : lightConfig) : Except String Light := do
  let lightObj ← createLight config
  let lightObj := configureShadow lightObj
  let lightObj :=
    if config.position.length = 3 then
      setLightPositionObj lightObj (vec3OfList config.position)
    else lightObj
  Except.ok { config := config, light := lightObj, helper := createHelper lightObj }

/-- `Light.getConfig`: copies live values from the underlying light back
into the config record, per runtime class.  For a `HemisphereLight` both
`color` and `skyColor` receive the light's `color` channel (the sky color).
-/
def Light.getConfig (l : Light) : lightConfig :=
  match l.light with
  | none => l.config
  | some obj =>
    if obj.kind = lightTypeEnum.Directional ∨ obj.kind = lightTypeEnum.Point
        ∨ obj.kind = lightTypeEnum.Spot then
      { l.config with
        position := [obj.position.x, obj.position.y, obj.position.z]
        color := obj.color
        intensity := obj.intensity }
    else if obj.kind = lightTypeEnum.Hemisphere then
      { l.config with
        color := obj.color
        intensity := obj.intensity
        skyColor := some obj.color
        groundColor := some obj.groundColor }
    else if obj.kind = lightTypeEnum.RectArea then
      { l.config with
        color := obj.color
        intensity := obj.intensity
        width := some obj.width
        height := some obj.height }
    else if obj.kind = lightTypeEnum.Ambient then
      { l.config with
        color := obj.color
        intensity := obj.intensity }
    else l.config

/-- `Light.switch(on, onHelper)`: guarded by `if (this.#light)`; sets the
light's visibility to `on` and, when a helper exists, the helper's
visibility to `on ? onHelper : false`. -/
def Light.switch (l : Light) (onVal onHelper : Bool) : Light :=
  match l.light with
  | none => l
  | some obj =>
    { l with
      light := some { obj with visible := onVal }
      helper := l.helper.map fun h =>
        { h with visible := if onVal then onHelper else false } }

/-- `Light.isOn`: reads the underlying light's visibility, `false` when no
light was constructed. -/
def Light.isOn (l : Light) : Bool :=
  match l.light with
  | some obj => obj.visible
  | none => false

/- ----------------------------------------------------------------- -/
/- Camera: src/unnamed/part_019 (camera.ts, Camera class variant)    -/
/- ----------------------------------------------------------------- -/

/-- `cameraTypeEnum` from the camera module. -/
inductive cameraTypeEnum
  | PERSPECTIVE
  | ORTHOGRAPHIC
  | UNDEFINED
deriving DecidableEq, Repr

/-- `cameraConfig` from the camera module. -/
structure cameraConfig where
  type : cameraTypeEnum
  width : Rat
  height : Rat
  fov : Option Rat := none
  near : Option Rat := none
  far : Option Rat := none
deriving DecidableEq, Repr

/-- A `THREE.PerspectiveCamera`: its mutable parameters plus the parameters
baked into the projection matrix at the last `updateProjectionMatrix` call
(`proj*` fields).  `updateMatrixWorld` touches only the world transform,
which no claimed operation observes, and is not carried. -/
structure PerspectiveCameraObj where
  fov : Rat
  aspect : Rat
  near : Rat
  far : Rat
  projFov : Rat
  projAspect : Rat
  projNear : Rat
  projFar : Rat
deriving DecidableEq, Repr

/-- A `THREE.OrthographicCamera` frustum. -/
structure OrthographicCameraObj where
  left : Rat
  right : Rat
  top : Rat
  bottom : Rat
  near : Rat
  far : Rat
deriving DecidableEq, Repr

/-- A `THREE.Camera` value; `instanceof THREE.PerspectiveCamera` becomes a
match on the first constructor. -/
inductive ThreeCamera
  | perspective (p : PerspectiveCameraObj)
  | orthographic (o : OrthographicCameraObj)
deriving DecidableEq, Repr

/-- `THREE.PerspectiveCamera(fov, aspect, near, far)`: the constructor
computes the projection matrix from its parameters. -/
def mkPerspectiveCamera (fov aspect near far : Rat) : PerspectiveCameraObj :=
  { fov := fov, aspect := aspect, near := near, far := far
    projFov := fov, projAspect := aspect, projNear := near, projFar := far }

/-- `PerspectiveCamera.updateProjectionMatrix`: rebakes the projection
matrix from the camera's current parameters. -/
def updateProjectionMatrix (p : PerspectiveCameraObj) : PerspectiveCameraObj :=
  { p with projFov := p.fov, projAspect := p.aspect
           projNear := p.near, projFar := p.far }

/-- The zod `cameraConfigSchema` check: `width` and `height` must be
positive; everything else is well typed by construction. -/
def cameraConfigValid (cf : cameraConfig) : Bool :=
  0 < cf.width ∧ 0 < cf.height

/-- The state of a `Camera` class instance (`#camera`). -/
structure Camera where
  camera : Option ThreeCamera
deriving DecidableEq, Repr

/-- The `Camera` constructor: `safeParse` rejects a non-positive width or
height with a synchronous throw (the message is the source's copy-pasted
`Invalid light configuration` string); otherwise `#createCamera` builds a
perspective camera with `fov ?? 75`, aspect `width/height`, `near ?? 0.01`,
`far ?? 1000`, or an orthographic camera over `±width/2`, `±height/2`, and
leaves `#camera` undefined for the `UNDEFINED` kind. -/
def Camera.create (cf : cameraConfig) : Except String Camera :=
  if ¬cameraConfigValid cf then Except.error "Invalid light configuration"
  else
    Except.ok
      { camera :=
          match cf.type with
          | cameraTypeEnum.PERSPECTIVE =>
            some (ThreeCamera.perspective
              (mkPerspectiveCamera (cf.fov.getD 75) (cf.width / cf.height)
                (cf.near.getD (1 / 100)) (cf.far.getD 1000)))
          | cameraTypeEnum.ORTHOGRAPHIC =>
            some (ThreeCamera.orthographic
              { left := cf.width / (-2), right := cf.width / 2
                top := cf.height / 2, bottom := cf.height / (-2)
                near := cf.near.getD (1 / 100), far := cf.far.getD 1000 })
          | cameraTypeEnum.UNDEFINED => none }

/-- `Camera.updateCameraWindowSize(newWidth, newHeight)`: for a perspective
camera sets `aspect = newWidth / newHeight` and recomputes the projection
matrix (`updateMatrixWorld` is not carried, see `PerspectiveCameraObj`);
for any other camera it does nothing. -/
def Camera.updateCameraWindowSize (c : Camera) (newWidth newHeight : Rat) : Camera :=
  match c.camera with
  | some (ThreeCamera.perspective p) =>
    { camera := some (ThreeCamera.perspective
        (updateProjectionMatrix { p with aspect := newWidth / newHeight })) }
  | _ => c

/- ----------------------------------------------------------------- -/
/- Prepared construct viewport resize: src/unnamed/part_021          -/
/- ----------------------------------------------------------------- -/

/-- The renderer state observed by `updateCameraWindowSize`
(`renderer.setSize`). -/
structure RendererState where
  width : Rat
  height : Rat
deriving DecidableEq, Repr

/-- The slice of a `preparedConstructReturn` closure state that the
viewport-resize operation touches: the camera wrapper, the keyed
`constructedScenes` registry (each registered prepared-scene unit is
abstracted by an opaque id — only its identity and its viewport hook
matter here), and the renderer. -/
structure PreparedConstruct where
  camera : Camera
  constructedScenes : List (String × Nat)
  renderer : RendererState
deriving DecidableEq, Repr

/-- The construct-level `updateCameraWindowSize(newWidth, newHeight)` of the
final variant: forwards to the camera wrapper, then calls
`l.updateCameraWindowSize(newWidth, newHeight)` once for each value of the
`constructedScenes` registry in order, then `renderer.setSize`.  The hook
invocations are returned as an explicit call trace `(key, width, height)`.
-/
def updateConstructWindowSize (pc : PreparedConstruct) (newWidth newHeight : Rat) :
    PreparedConstruct × List (String × Rat × Rat) :=
  ({ camera := pc.camera.updateCameraWindowSize newWidth newHeight
     constructedScenes := pc.constructedScenes
     renderer := { width := newWidth, height := newHeight } },
   pc.constructedScenes.map fun kv => (kv.1, newWidth, newHeight))

/- ----------------------------------------------------------------- -/
/- Capability decoration: material.ts, part_016 (mouse), part_014    -/
/- (effects)                                                         -/
/- ----------------------------------------------------------------- -/

/-- The `materialSupportContainer` bundle returned by `materialSupport`:
its observable state is `actualMaterial` (a `THREE.MeshPhysicalMaterial`,
abstracted by an id), initially undefined; `setMaterial` / `changeMaterial`
are closures over it. -/
structure MaterialSupportContainer where
  actualMaterial : Option Nat
deriving DecidableEq, Repr

/-- The `container` bundle returned by `mouseSupport` (part_016): the
`onClick` / `onMouseMove` event handlers, not otherwise observable. -/
structure MouseSupportContainer where
  handlers : Unit
deriving DecidableEq, Repr

/-- The `effectSupportContainer` bundle returned by `effects` (part_014):
the `tweenChangeMaterial` / `tweenPrepareFirstPosition` closures, not
otherwise observable. -/
structure EffectSupportContainer where
  tweens : Unit
deriving DecidableEq, Repr

/-- A `preparedSceneReturn` object as seen by the capability decorators: the
base scene bundle (its methods and content group abstracted by an id) plus
the three optional capability properties the structural predicates test.
The mouse capability's property is literally named `container` in the
source. -/
structure preparedScene where
  base : Nat
  materialSupportContainer : Option MaterialSupportContainer
  container : Option MouseSupportContainer
  effectSupportContainer : Option EffectSupportContainer
deriving DecidableEq, Repr

/-- `hasMaterialSupport` (material.ts): structural test
`obj.materialSupportContainer !== undefined`. -/
def hasMaterialSupport (s : preparedScene) : Bool :=
  s.materialSupportContainer.isSome

/-- `hasMouseSupport` (part_016): structural test
`obj.container !== undefined`. -/
def hasMouseSupport (s : preparedScene) : Bool :=
  s.container.isSome

/-- `hasEffectsSupport` (part_014): structural test
`obj.effectSupportContainer !== undefined`. -/
def hasEffectsSupport (s : preparedScene) : Bool :=
  s.effectSupportContainer.isSome

/-- `materialSupport(scene)` (material.ts): a fresh container whose
`actualMaterial` starts undefined. -/
def materialSupport (_scene : preparedScene) : MaterialSupportContainer :=
  { actualMaterial := none }

/-- `mouseSupport(construct)` (part_016): a fresh handler bundle. -/
def mouseSupport (_construct : PreparedConstruct) : MouseSupportContainer :=
  { handlers := () }

/-- `effects()` (part_014): a fresh tween bundle. -/
def effects : EffectSupportContainer :=
  { tweens := () }

/-- `addMaterialSupport(scene, construct)` (material.ts): returns the scene
unchanged when it already has the capability or no construct is given;
otherwise the spread `{...scene, ...materialSupport(scene)}` sets the
capability property and keeps everything else. -/
def addMaterialSupport (scene : preparedScene) (construct : Option PreparedConstruct) :
    preparedScene :=
  if hasMaterialSupport scene then scene
  else
    match construct with
    | none => scene
    | some _ => { scene with materialSupportContainer := some (materialSupport scene) }

/-- `addMouseSupport(scene, construct)` (part_016): same guard structure,
merging `mouseSupport(construct)`. -/
def addMouseSupport (scene : preparedScene) (construct : Option PreparedConstruct) :
    preparedScene :=
  if hasMouseSupport scene then scene
  else
    match construct with
    | none => scene
    | some c => { scene with container := some (mouseSupport c) }

/-- `addEffectSupport(scene, construct)` (part_014): same guard structure,
merging `effects()`. -/
def addEffectSupport (scene : preparedScene) (construct : Option PreparedConstruct) :
    preparedScene :=
  if hasEffectsSupport scene then scene
  else
    match construct with
    | none => scene
    | some _ => { scene with effectSupportContainer := some effects }

/- ----------------------------------------------------------------- -/
/- Construct registries: src/unnamed/part_021 (construct.ts final    -/
/- variant), addLight / deleteLight / addContent / deleteContent     -/
/- ----------------------------------------------------------------- -/

/-- A `Light` instance as the construct bookkeeping sees it: the identity of
its underlying light object (`getLight()`, `undefined` when construction
produced none — e.g. an `Unknown` kind) and of its helper (`getHelper()`).
Scene-graph attachment is about object identity, so nodes are abstracted by
ids. -/
structure LightRef where
  obj : Option Nat
  helper : Option Nat
deriving DecidableEq, Repr

/-- The construct state the four registry operations touch: the `lights`
and `content` maps (JS `Map`s as association lists in insertion order) and
the children of the scene root. -/
structure ConstructState where
  lights : List (String × LightRef)
  content : List (String × Nat)
  sceneChildren : List Nat
deriving DecidableEq, Repr

/-- JS `Map.get`. -/
def mapGet {α : Type} (k : String) : List (String × α) → Option α
  | [] => none
  | (k1, v) :: rest => if k1 = k then some v else mapGet k rest

/-- JS `Map.set`: replaces the entry in place when the key exists, appends
otherwise. -/
def mapSet {α : Type} (k : String) (v : α) : List (String × α) → List (String × α)
  | [] => [(k, v)]
  | (k1, v1) :: rest =>
    if k1 = k then (k, v) :: rest else (k1, v1) :: mapSet k v rest

/-- JS `Map.delete`. -/
def mapDelete {α : Type} (k : String) : List (String × α) → List (String × α)
  | [] => []
  | (k1, v1) :: rest => if k1 = k then rest else (k1, v1) :: mapDelete k rest

/-- `THREE.Object3D.add(obj)` on the scene root: the object is detached
from its previous parent (within this model, removed from the root's
children if present) and pushed onto the children list. -/
def sceneAdd (id : Nat) (children : List Nat) : List Nat :=
  children.erase id ++ [id]

/-- `THREE.Object3D.remove(obj)` on the scene root. -/
def sceneRemove (id : Nat) (children : List Nat) : List Nat :=
  children.erase id

/-- The four registry operations of the prepared construct. -/
inductive ConstructOp
  | addLight (key : String) (light : LightRef)
  | deleteLight (key : String)
  | addContent (key : String) (content : Nat)
  | deleteContent (key : String)
deriving DecidableEq, Repr

/-- One registry operation of part_021:
`addLight` sets the map entry, then adds `getLight()` to the scene only when
it exists (the helper is fetched but never attached in this variant);
`deleteLight` acts only when the entry exists *and* its `getLight()` is
truthy, removing map entry and scene node together, and otherwise does
nothing at all;
`addContent` sets the map entry and attaches the group;
`deleteContent` removes an existing entry and its group together. -/
def stepOp (s : ConstructState) : ConstructOp → ConstructState
  | ConstructOp.addLight key light =>
    { s with
      lights := mapSet key light s.lights
      sceneChildren :=
        match light.obj with
        | some id => sceneAdd id s.sceneChildren
        | none => s.sceneChildren }
  | ConstructOp.deleteLight key =>
    match mapGet key s.lights with
    | some light =>
      match light.obj with
      | some id =>
        { s with
          lights := mapDelete key s.lights
          sceneChildren := sceneRemove id s.sceneChildren }
      | none => s
    | none => s
  | ConstructOp.addContent key content =>
    { s with
      content := mapSet key content s.content
      sceneChildren := sceneAdd content s.sceneChildren }
  | ConstructOp.deleteContent key =>
    match mapGet key s.content with
    | some content =>
      { s with
        content := mapDelete key s.content
        sceneChildren := sceneRemove content s.sceneChildren }
    | none => s

/-- `ops.foldl`: run a sequence of registry operations. -/
def runOps (s : ConstructState) (ops : List ConstructOp) : ConstructState :=
  ops.foldl stepOp s

/-- The state right after `construct(width, height)` plus
`prepareConstruct`: the `standard` ambient light (whose underlying object,
abstracted as node 0, exists and has no helper) is registered and attached
to the scene root; both other registries are empty. -/
def initialConstruct : ConstructState :=
  { lights := [("standard", { obj := some 0, helper := none })]
    content := []
    sceneChildren := [0] }

/-- All node ids currently referenced by registry entries. -/
def refIds (s : ConstructState) : List Nat :=
  (s.lights.map fun kv => kv.2.obj).reduceOption ++ s.content.map fun kv => kv.2

/-- The no-aliasing side condition of the amended C1 invariant: an add
operation must not register a node id that some registry entry already
references (re-registering the very same underlying object under a second
key is what breaks the invariant in the source). -/
def okOp (s : ConstructState) : ConstructOp → Bool
  | ConstructOp.addLight _ light =>
    match light.obj with
    | some id => ¬(refIds s).contains id
    | none => true
  | ConstructOp.addContent _ content => ¬(refIds s).contains content
  | ConstructOp.deleteLight _ => true
  | ConstructOp.deleteContent _ => true

/-- `okOp` holding at every intermediate state of a run. -/
def okOps (s : ConstructState) : List ConstructOp → Bool
  | [] => true
  | op :: ops => okOp s op && okOps (stepOp s op) ops

/- ----------------------------------------------------------------- -/
/- The C1 invariant predicates                                       -/
/- ----------------------------------------------------------------- -/

/-- Every light entry whose underlying light exists is attached to the
scene root. -/
def lightsAttached (s : ConstructState) : Prop :=
  ∀ k : String, ∀ l : LightRef, ∀ id : Nat,
    mapGet k s.lights = some l → l.obj = some id → id ∈ s.sceneChildren

/-- Every content entry is attached to the scene root. -/
def contentAttached (s : ConstructState) : Prop :=
  ∀ k : String, ∀ g : Nat, mapGet k s.content = some g → g ∈ s.sceneChildren

/-- Distinct light entries never share an underlying node. -/
def lightRefsDisjoint (s : ConstructState) : Prop :=
  ∀ k1 l1 id1 k2 l2, mapGet k1 s.lights = some l1 → l1.obj = some id1 →
    mapGet k2 s.lights = some l2 → l2.obj = some id1 → k1 = k2

/-- No light entry shares its node with a content entry. -/
def lightContentDisjoint (s : ConstructState) : Prop :=
  ∀ k1 l1 id1 k2, mapGet k1 s.lights = some l1 → l1.obj = some id1 →
    mapGet k2 s.content = some id1 → False

/-- Distinct content entries never share a node. -/
def contentRefsDisjoint (s : ConstructState) : Prop :=
  ∀ k1 k2 g, mapGet k1 s.content = some g → mapGet k2 s.content = some g → k1 = k2

/-- The inductive invariant of the registry state machine. -/
def ConstructInv (s : ConstructState) : Prop :=
  lightsAttached s ∧ contentAttached s
  ∧ lightRefsDisjoint s ∧ lightContentDisjoint s ∧ contentRefsDisjoint s
  ∧ (s.lights.map Prod.fst).Nodup ∧ (s.content.map Prod.fst).Nodup
  ∧ s.sceneChildren.Nodup

/- ----------------------------------------------------------------- -/
/- Concrete inputs used by witnesses and counterexamples             -/
/- ----------------------------------------------------------------- -/

/-- A concrete constructed point light with a helper, as the `Light`
constructor produces it. -/
def exampleSwitchLight : Light :=
  { config := { type := lightTypeEnum.Point, color := 5, intensity := 2
                position := [1, 2, 3] }
    light := some { kind := lightTypeEnum.Point, color := 5, groundColor := 0
                    intensity := 2, position := { x := 1, y := 2, z := 3 }
                    width := 1, height := 1, visible := true, castShadow := true }
    helper := some { visible := true } }

/-- A concrete valid 800×600 perspective camera config. -/
def cfg800 : cameraConfig :=
  { type := cameraTypeEnum.PERSPECTIVE, width := 800, height := 600 }

/-- The camera object the 800×600 perspective config constructs. -/
def cam800 : Camera :=
  { camera := some (ThreeCamera.perspective
      (mkPerspectiveCamera 75 (800 / 600) (1 / 100) 1000)) }

/-- A bare prepared scene with no capabilities. -/
def bareScene : preparedScene :=
  { base := 0, materialSupportContainer := none, container := none
    effectSupportContainer := none }

/-- A concrete prepared construct to decorate against. -/
def examplePC : PreparedConstruct :=
  { camera := cam800, constructedScenes := []
    renderer := { width := 800, height := 600 } }

/-- A valid Hemisphere config whose `skyColor` differs from its `color`. -/
def hemisphereMismatchConfig : lightConfig :=
  { type := lightTypeEnum.Hemisphere, color := 1, intensity := 1
    position := [0, 0, 0], skyColor := some 2, groundColor := some 3 }

/-- A `Light` whose underlying light was never constructed
(`createLight` returned `undefined`, as for the `Unknown` kind). -/
def unknownKindLight : LightRef :=
  { obj := none, helper := none }

/-- A concrete alias-free operation sequence: one constructed light, one
content group. -/
def demoOps : List ConstructOp :=
  [ConstructOp.addLight "key1" { obj := some 5, helper := none },
   ConstructOp.addContent "c" 9]

/- ----------------------------------------------------------------- -/
/- Helper lemmas: list swaps are permutations                        -/
/- ----------------------------------------------------------------- -/

/-- Overwriting index `i` with the value already there is the identity. -/
theorem set_getElem_self {α : Type} (l : List α) (i : Nat) (hi : i < l.length) :
    l.set i l[i] = l := by
  induction l generalizing i with
  | nil => simp at hi
  | cons y ys ih =>
    cases i with
    | zero => rfl
    | succ n =>
      simp only [List.set_cons_succ, List.getElem_cons_succ]
      rw [ih n (by simpa using hi)]

/-- Pulling the element at index `m` to the front while writing `x` there
is a permutation of pushing `x` onto the front. -/
theorem get_cons_set_perm {α : Type} (xs : List α) (m : Nat) (hm : m < xs.length)
    (x : α) : List.Perm (xs.get ⟨m, hm⟩ :: xs.set m x) (x :: xs) := by
  induction xs generalizing m with
  | nil => simp at hm
  | cons y ys ih =>
    cases m with
    | zero => simpa using List.Perm.swap x y ys
    | succ n =>
      have hn : n < ys.length := by simpa using hm
      show List.Perm (ys.get ⟨n, hn⟩ :: y :: ys.set n x) (x :: y :: ys)
      have s1 : List.Perm (ys.get ⟨n, hn⟩ :: y :: ys.set n x)
          (y :: ys.get ⟨n, hn⟩ :: ys.set n x) :=
        List.Perm.swap y (ys.get ⟨n, hn⟩) (ys.set n x)
      have s2 : List.Perm (y :: ys.get ⟨n, hn⟩ :: ys.set n x) (y :: x :: ys) :=
        List.Perm.cons y (ih n hn)
      have s3 : List.Perm (y :: x :: ys) (x :: y :: ys) := List.Perm.swap x y ys
      exact (s1.trans s2).trans s3

/-- The destructuring swap is a permutation. -/
theorem swapIdx_perm (deck : List Card) (i j : Nat) :
    List.Perm (swapIdx deck i j) deck := by
  unfold swapIdx
  cases h1 : deck[i]? with
  | none => exact List.Perm.refl deck
  | some a =>
    cases h2 : deck[j]? with
    | none => exact List.Perm.refl deck
    | some b =>
      show List.Perm ((deck.set i b).set j a) deck
      have hi : i < deck.length := by
        by_contra hcon
        rw [List.getElem?_eq_none (Nat.le_of_not_lt hcon)] at h1
        exact Option.noConfusion h1
      have hj : j < deck.length := by
        by_contra hcon
        rw [List.getElem?_eq_none (Nat.le_of_not_lt hcon)] at h2
        exact Option.noConfusion h2
      have ha : deck[i] = a := by
        have h3 := List.getElem?_eq_getElem hi
        rw [h1] at h3
        exact (Option.some_inj.mp h3).symm
      have hb : deck[j] = b := by
        have h3 := List.getElem?_eq_getElem hj
        rw [h2] at h3
        exact (Option.some_inj.mp h3).symm
      by_cases hij : i = j
      · subst hij
        have hab : a = b := by rw [← ha, hb]
        subst hab
        rw [List.set_set, ← ha, set_getElem_self deck i hi]
      · have hj2 : j < (deck.set i b).length := by simpa using hj
        have hgb : (deck.set i b).get ⟨j, hj2⟩ = b := by
          have h3 : (deck.set i b)[j] = deck[j] := List.getElem_set_ne hij hj2
          rw [List.get_eq_getElem, h3, hb]
        have p2 : List.Perm ((deck.set i b).get ⟨j, hj2⟩ :: (deck.set i b).set j a)
            (a :: deck.set i b) := get_cons_set_perm _ j hj2 a
        rw [hgb] at p2
        have p1 : List.Perm (deck.get ⟨i, hi⟩ :: deck.set i b) (b :: deck) :=
          get_cons_set_perm deck i hi b
        have ha2 : deck.get ⟨i, hi⟩ = a := ha
        rw [ha2] at p1
        exact List.Perm.cons_inv (p2.trans p1)

/-- Every stage of the Fisher-Yates loop is a permutation of its input. -/
theorem fyLoop_perm (rand : Nat → Nat) (i : Nat) (deck : List Card) :
    List.Perm (fyLoop rand i deck) deck := by
  induction i generalizing deck with
  | zero => exact List.Perm.refl deck
  | succ n ih =>
    exact (ih _).trans (swapIdx_perm deck (n + 1) (rand (n + 1) % (n + 2)))

/- ----------------------------------------------------------------- -/
/- Claims C7-C10: card deck                                          -/
/- ----------------------------------------------------------------- -/

/-- C8: `createDeck()` always returns a deck of exactly 52 cards whose
(suit, value) pairs are pairwise distinct and cover all 4 suits × 13
values, with each card's color Red exactly when its suit is Hearts or
Diamonds and Black otherwise. -/
theorem createDeck_fiftyTwo_unique_covering_colored :
    createDeck.length = 52
    ∧ (createDeck.map fun c => (c.suit, c.value)).Nodup
    ∧ (∀ s : Suit, ∀ v : Value, (s, v) ∈ createDeck.map fun c => (c.suit, c.value))
    ∧ (∀ i : Fin createDeck.length,
        (createDeck.get i).color = CardColor.Red
          ↔ ((createDeck.get i).suit = Suit.Hearts
              ∨ (createDeck.get i).suit = Suit.Diamonds)) := by
  decide

/-- C7: on every non-empty deck `drawCard` removes and returns the last
card and `peekCard` returns the last card; on the empty deck both throw the
empty-deck error (and, being pure before the throw, leave the deck
unchanged). -/
theorem drawCard_peekCard_spec (deck : List Card) (h : deck ≠ []) :
    drawCard deck = Except.ok (some (deck.getLast h), deck.dropLast)
    ∧ deck.dropLast.length = deck.length - 1
    ∧ peekCard deck = Except.ok (deck.getLast h)
    ∧ drawCard [] = Except.error { message := "Cannot draw a card from an empty deck." }
    ∧ peekCard [] = Except.error { message := "Cannot peek a card from an empty deck." } := by
  have hlen : ¬deck.length = 0 := fun hc => h (List.length_eq_zero.mp hc)
  refine ⟨?_, List.length_dropLast deck, ?_, rfl, rfl⟩
  · rw [drawCard, if_neg hlen, List.getLast?_eq_getLast deck h]
  · rw [peekCard, dif_neg hlen]

/-- Witness for C7 at a concrete one-card deck: drawing returns that card
and leaves the empty deck. -/
theorem drawCard_peekCard_spec_witness :
    drawCard [{ suit := Suit.Hearts, value := Value.Ace, color := CardColor.Red }]
      = Except.ok (some { suit := Suit.Hearts, value := Value.Ace, color := CardColor.Red }, [])
    ∧ peekCard [{ suit := Suit.Hearts, value := Value.Ace, color := CardColor.Red }]
      = Except.ok { suit := Suit.Hearts, value := Value.Ace, color := CardColor.Red } := by
  have h := drawCard_peekCard_spec
    [{ suit := Suit.Hearts, value := Value.Ace, color := CardColor.Red }] (by decide)
  exact ⟨h.1, h.2.2.1⟩

/-- C9: under both pluggable algorithms, `shuffle` returns a deck with the
same length and the same multiset of cards as the input (a permutation). -/
theorem shuffle_perm (alg : ShuffleAlgorithm) (rand : Nat → Nat) (coin : Nat → Bool)
    (fuel : Nat) (deck : List Card) :
    List.Perm (shuffle alg rand coin fuel deck) deck
    ∧ (shuffle alg rand coin fuel deck).length = deck.length
    ∧ (shuffle alg rand coin fuel deck : Multiset Card) = (deck : Multiset Card) := by
  have hp : List.Perm (shuffle alg rand coin fuel deck) deck := by
    cases alg with
    | fisherYates => exact fyLoop_perm rand (deck.length - 1) deck
    | riffle => exact List.Perm.refl deck
  exact ⟨hp, hp.length_eq, Quot.sound hp⟩

/-- C10: with the 'riffle' algorithm selected, `shuffle` returns the deck
with its elements in their original order — `riffleShuffle`'s interleaved
result is built from copies and discarded — while the 'fisher-yates'
algorithm does reorder the deck in place (shown at a concrete two-card deck
and random stream). -/
theorem shuffle_riffle_is_identity (rand : Nat → Nat) (coin : Nat → Bool)
    (fuel : Nat) (deck : List Card) :
    shuffle ShuffleAlgorithm.riffle rand coin fuel deck = deck
    ∧ shuffle ShuffleAlgorithm.fisherYates (fun _ => 0) coin fuel
        [{ suit := Suit.Hearts, value := Value.Ace, color := CardColor.Red },
         { suit := Suit.Spades, value := Value.v2, color := CardColor.Black }]
      ≠ [{ suit := Suit.Hearts, value := Value.Ace, color := CardColor.Red },
         { suit := Suit.Spades, value := Value.v2, color := CardColor.Black }] := by
  constructor
  · rfl
  · show fisherYatesShuffle (fun _ => 0)
        [{ suit := Suit.Hearts, value := Value.Ace, color := CardColor.Red },
         { suit := Suit.Spades, value := Value.v2, color := CardColor.Black }] ≠ _
    decide

/- ----------------------------------------------------------------- -/
/- Claim C3: Light.switch / Light.isOn                               -/
/- ----------------------------------------------------------------- -/

/-- C3: for every light with a constructed underlying light,
`switch(on, onHelper)` sets the light's visibility to `on` and, when a
helper exists, the helper's visibility to `on ? onHelper : false`; in
particular `switch(false, true)` leaves the helper invisible, a visible
helper after a switch implies a visible light, and `switch(true, false)`
shows the converse fails (light on, helper off). -/
theorem light_switch_spec (l : Light) (onVal onHelper : Bool) (obj : ThreeLightObj)
    (h : l.light = some obj) :
    (Light.switch l onVal onHelper).light = some { obj with visible := onVal }
    ∧ (Light.switch l onVal onHelper).isOn = onVal
    ∧ (∀ hp : LightHelper, l.helper = some hp →
        (Light.switch l onVal onHelper).helper
          = some { visible := if onVal then onHelper else false })
    ∧ (Light.switch l false true).helper = (l.helper.map fun _ => { visible := false })
    ∧ (∀ hp : LightHelper, (Light.switch l onVal onHelper).helper = some hp →
        hp.visible = true → (Light.switch l onVal onHelper).isOn = true)
    ∧ (Light.switch l true false).isOn = true
    ∧ (Light.switch l true false).helper = (l.helper.map fun _ => { visible := false }) := by
  refine ⟨?_, ?_, ?_, ?_, ?_, ?_, ?_⟩
  · simp [Light.switch, h]
  · simp [Light.switch, Light.isOn, h]
  · intro hp hhp
    simp [Light.switch, h, hhp]
  · cases hhp : l.helper with
    | none => simp [Light.switch, h, hhp]
    | some hp => simp [Light.switch, h, hhp]
  · intro hp hhp hvis
    simp only [Light.switch, h] at hhp ⊢
    simp only [Light.isOn]
    cases hlh : l.helper with
    | none => rw [hlh] at hhp; simp at hhp
    | some hp1 =>
      rw [hlh] at hhp
      simp at hhp
      cases onVal with
      | true => rfl
      | false => rw [← hhp] at hvis; simp at hvis
  · simp [Light.switch, Light.isOn, h]
  · cases hhp : l.helper with
    | none => simp [Light.switch, h, hhp]
    | some hp => simp [Light.switch, h, hhp]

/-- Witness for C3: `switch(false, true)` on a concrete light turns the
light off and leaves the helper invisible. -/
theorem light_switch_spec_witness :
    (Light.switch exampleSwitchLight false true).isOn = false
    ∧ (Light.switch exampleSwitchLight false true).helper = some { visible := false } := by
  have h := light_switch_spec exampleSwitchLight false true
    { kind := lightTypeEnum.Point, color := 5, groundColor := 0
      intensity := 2, position := { x := 1, y := 2, z := 3 }
      width := 1, height := 1, visible := true, castShadow := true } rfl
  exact ⟨h.2.1, h.2.2.1 { visible := true } rfl⟩

/- ----------------------------------------------------------------- -/
/- Claim C6: Camera construction                                     -/
/- ----------------------------------------------------------------- -/

/-- C6: camera construction throws the invalid-configuration error exactly
when `width ≤ 0` or `height ≤ 0`, and for every positive-sized config of a
known kind it succeeds with an underlying camera object. -/
theorem camera_create_spec (cf : cameraConfig) :
    ((Camera.create cf).isOk = true ↔ (0 < cf.width ∧ 0 < cf.height))
    ∧ ((cf.width ≤ 0 ∨ cf.height ≤ 0) →
        Camera.create cf = Except.error "Invalid light configuration")
    ∧ (0 < cf.width → 0 < cf.height → cf.type ≠ cameraTypeEnum.UNDEFINED →
        ∃ c : Camera, Camera.create cf = Except.ok c ∧ c.camera.isSome = true) := by
  have hval : cameraConfigValid cf = true ↔ (0 < cf.width ∧ 0 < cf.height) := by
    simp [cameraConfigValid]
  by_cases hp : 0 < cf.width ∧ 0 < cf.height
  · have hok : Camera.create cf
        = Except.ok { camera :=
            match cf.type with
            | cameraTypeEnum.PERSPECTIVE =>
              some (ThreeCamera.perspective
                (mkPerspectiveCamera (cf.fov.getD 75) (cf.width / cf.height)
                  (cf.near.getD (1 / 100)) (cf.far.getD 1000)))
            | cameraTypeEnum.ORTHOGRAPHIC =>
              some (ThreeCamera.orthographic
                { left := cf.width / (-2), right := cf.width / 2
                  top := cf.height / 2, bottom := cf.height / (-2)
                  near := cf.near.getD (1 / 100), far := cf.far.getD 1000 })
            | cameraTypeEnum.UNDEFINED => none } := by
      rw [Camera.create, if_neg (not_not_intro (hval.mpr hp))]
  
    refine ⟨?_, ?_, ?_⟩
    · rw [hok]
      simp [Except.isOk, Except.toBool, hp]
    · intro hneg
      rcases hneg with hw | hh
      · exact absurd hp.1 (not_lt.mpr hw)
      · exact absurd hp.2 (not_lt.mpr hh)
    · intro _ _ hkind
      refine ⟨_, hok, ?_⟩
      cases htype : cf.type with
      | PERSPECTIVE => simp [htype]
      | ORTHOGRAPHIC => simp [htype]
      | UNDEFINED => exact absurd htype hkind
  · have herr : Camera.create cf = Except.error "Invalid light configuration" := by
      rw [Camera.create, if_pos]
      intro hb
      exact hp (hval.mp hb)
    refine ⟨?_, fun _ => herr, ?_⟩
    · rw [herr]
      simp [Except.isOk, Except.toBool, hp]
    · intro hw hh _
      exact absurd ⟨hw, hh⟩ hp

/-- Witness for C6: the 800×600 perspective config constructs successfully
with an underlying camera. -/
theorem camera_create_spec_witness :
    (Camera.create cfg800).isOk = true
    ∧ ∃ c : Camera, Camera.create cfg800 = Except.ok c ∧ c.camera.isSome = true := by
  have h := camera_create_spec cfg800
  exact ⟨h.1.mpr (by decide), h.2.2 (by decide) (by decide) (by decide)⟩

/- ----------------------------------------------------------------- -/
/- Claim C2: viewport resize propagation                             -/
/- ----------------------------------------------------------------- -/

/-- C2: on a construct whose camera was built from a valid perspective
config, `updateCameraWindowSize(w2, h2)` sets the perspective camera's
aspect to exactly `w2 / h2` and rebakes the projection matrix from it,
invokes the viewport hook of every registered constructed scene exactly
once per call (the call trace is one entry per registry entry, in order),
and the camera update is a no-op for non-perspective cameras. -/
theorem updateViewport_spec (cf : cameraConfig) (cam : Camera)
    (hcam : Camera.create cf = Except.ok cam)
    (hkind : cf.type = cameraTypeEnum.PERSPECTIVE)
    (hw : 0 < cf.width) (hh : 0 < cf.height)
    (scenes : List (String × Nat)) (hkeys : (scenes.map Prod.fst).Nodup)
    (r : RendererState) (w2 h2 : Rat) :
    (∃ p : PerspectiveCameraObj,
      ((updateConstructWindowSize
          { camera := cam, constructedScenes := scenes, renderer := r } w2 h2).1.camera).camera
        = some (ThreeCamera.perspective p)
      ∧ p.aspect = w2 / h2 ∧ p.projAspect = w2 / h2)
    ∧ (updateConstructWindowSize
        { camera := cam, constructedScenes := scenes, renderer := r } w2 h2).2
      = (scenes.map fun kv => (kv.1, w2, h2))
    ∧ (∀ k : String, k ∈ scenes.map Prod.fst →
        ((updateConstructWindowSize
            { camera := cam, constructedScenes := scenes, renderer := r } w2 h2).2.map
          Prod.fst).count k = 1)
    ∧ (∀ c : Camera, (∀ p : PerspectiveCameraObj,
          c.camera ≠ some (ThreeCamera.perspective p)) →
        Camera.updateCameraWindowSize c w2 h2 = c) := by
  have hvalid : ¬¬(cameraConfigValid cf = true) := by
    simp [cameraConfigValid, hw, hh]
  rw [Camera.create, if_neg hvalid, hkind] at hcam
  have hcamval : cam = { camera := some (ThreeCamera.perspective
      (mkPerspectiveCamera (cf.fov.getD 75) (cf.width / cf.height)
        (cf.near.getD (1 / 100)) (cf.far.getD 1000))) } :=
    (Except.ok.injEq _ _).mp hcam.symm
  refine ⟨?_, rfl, ?_, ?_⟩
  · rw [hcamval]
    exact ⟨_, rfl, rfl, rfl⟩
  · intro k hk
    have hmm : ((scenes.map fun kv => (kv.1, w2, h2)).map Prod.fst)
        = scenes.map Prod.fst := by
      rw [List.map_map]
      rfl
    show ((scenes.map fun kv => (kv.1, w2, h2)).map Prod.fst).count k = 1
    rw [hmm]
    exact List.count_eq_one_of_mem hkeys hk
  · intro c hnp
    rw [Camera.updateCameraWindowSize]
    cases hc : c.camera with
    | none => rfl
    | some tc =>
      cases tc with
      | perspective p => exact absurd hc (hnp p)
      | orthographic o => rfl

/-- Witness for C2: resizing a concrete 800×600 perspective construct with
one registered scene to 1920×1080 yields aspect 1920/1080 and one hook call.
-/
theorem updateViewport_spec_witness :
    (∃ p : PerspectiveCameraObj,
      ((updateConstructWindowSize
          { camera := cam800, constructedScenes := [("a", 7)]
            renderer := { width := 800, height := 600 } } 1920 1080).1.camera).camera
        = some (ThreeCamera.perspective p)
      ∧ p.aspect = 1920 / 1080 ∧ p.projAspect = 1920 / 1080)
    ∧ (updateConstructWindowSize
        { camera := cam800, constructedScenes := [("a", 7)]
          renderer := { width := 800, height := 600 } } 1920 1080).2
      = [("a", 1920, 1080)] := by
  have h := updateViewport_spec cfg800 cam800 rfl rfl (by decide) (by decide)
    [("a", 7)] (by decide) { width := 800, height := 600 } 1920 1080
  exact ⟨h.1, h.2.1⟩

/- ----------------------------------------------------------------- -/
/- Claim C5: capability decoration is idempotent                     -/
/- ----------------------------------------------------------------- -/

/-- C5: each capability decorator returns a scene that already carries the
capability unchanged, so applying the decorator twice equals applying it
once (for material, mouse and effects support alike). -/
theorem capability_decoration_idempotent (s : preparedScene)
    (c : Option PreparedConstruct) :
    (hasMaterialSupport s = true → addMaterialSupport s c = s)
    ∧ addMaterialSupport (addMaterialSupport s c) c = addMaterialSupport s c
    ∧ (hasMouseSupport s = true → addMouseSupport s c = s)
    ∧ addMouseSupport (addMouseSupport s c) c = addMouseSupport s c
    ∧ (hasEffectsSupport s = true → addEffectSupport s c = s)
    ∧ addEffectSupport (addEffectSupport s c) c = addEffectSupport s c := by
  have hmat : ∀ s1 : preparedScene, hasMaterialSupport s1 = true →
      addMaterialSupport s1 c = s1 := by
    intro s1 h1
    rw [addMaterialSupport.eq_def, if_pos h1]
  have hmou : ∀ s1 : preparedScene, hasMouseSupport s1 = true →
      addMouseSupport s1 c = s1 := by
    intro s1 h1
    rw [addMouseSupport.eq_def, if_pos h1]
  have heff : ∀ s1 : preparedScene, hasEffectsSupport s1 = true →
      addEffectSupport s1 c = s1 := by
    intro s1 h1
    rw [addEffectSupport.eq_def, if_pos h1]
  refine ⟨hmat s, ?_, hmou s, ?_, heff s, ?_⟩
  · by_cases h1 : hasMaterialSupport s = true
    · rw [hmat s h1]
      exact hmat s h1
    · cases c with
      | none => simp [addMaterialSupport, h1]
      | some pc =>
        apply hmat
        simp only [hasMaterialSupport] at h1 ⊢
        simp [addMaterialSupport, hasMaterialSupport, h1]
  · by_cases h1 : hasMouseSupport s = true
    · rw [hmou s h1]
      exact hmou s h1
    · cases c with
      | none => simp [addMouseSupport, h1]
      | some pc =>
        apply hmou
        simp only [hasMouseSupport] at h1 ⊢
        simp [addMouseSupport, hasMouseSupport, h1]
  · by_cases h1 : hasEffectsSupport s = true
    · rw [heff s h1]
      exact heff s h1
    · cases c with
      | none => simp [addEffectSupport, h1]
      | some pc =>
        apply heff
        simp only [hasEffectsSupport] at h1 ⊢
        simp [addEffectSupport, hasEffectsSupport, h1]

/-- Witness for C5: decorating a freshly decorated concrete scene a second
time changes nothing, for all three capabilities. -/
theorem capability_decoration_idempotent_witness :
    addMaterialSupport (addMaterialSupport bareScene (some examplePC)) (some examplePC)
      = addMaterialSupport bareScene (some examplePC)
    ∧ addMouseSupport (addMouseSupport bareScene (some examplePC)) (some examplePC)
      = addMouseSupport bareScene (some examplePC)
    ∧ addEffectSupport (addEffectSupport bareScene (some examplePC)) (some examplePC)
      = addEffectSupport bareScene (some examplePC) := by
  have h := capability_decoration_idempotent bareScene (some examplePC)
  exact ⟨h.2.1, h.2.2.2.1, h.2.2.2.2.2⟩

/- ----------------------------------------------------------------- -/
/- Claim C4: light config round-trip (corrected)                     -/
/- ----------------------------------------------------------------- -/

/-- C4 counterexample: constructing a Hemisphere light from a valid config
with `color = 1` and `skyColor = 2` and reading the config back yields
`color = 2` — `getConfig` copies the hemisphere light's sky-color channel
into the `color` field, so the claimed round-trip of the `color` field
fails. -/
theorem light_roundtrip_counterexample :
    ((Light.create hemisphereMismatchConfig).map fun l => l.getConfig.color)
      = Except.ok 2
    ∧ hemisphereMismatchConfig.color = 1 := by
  exact ⟨rfl, rfl⟩

/-- C4 amended: for every valid config of a known kind whose kind-relevant
optional fields are supplied, create-then-getConfig preserves the type,
intensity, position, sky/ground colors (Hemisphere) and width/height
(RectArea); the `color` field is preserved for every kind except
Hemisphere, where the returned color equals the supplied sky color
(falling back to `color` when absent). -/
theorem light_roundtrip_amended (cf : lightConfig)
    (hpos : cf.position.length = 3)
    (hkind : cf.type ≠ lightTypeEnum.Unknown)
    (hhemi : cf.type = lightTypeEnum.Hemisphere →
      cf.skyColor.isSome = true ∧ cf.groundColor.isSome = true)
    (hrect : cf.type = lightTypeEnum.RectArea →
      cf.width.isSome = true ∧ cf.height.isSome = true) :
    ∃ l : Light, Light.create cf = Except.ok l
      ∧ l.getConfig.type = cf.type
      ∧ l.getConfig.intensity = cf.intensity
      ∧ l.getConfig.position = cf.position
      ∧ l.getConfig.color
          = (if cf.type = lightTypeEnum.Hemisphere then cf.skyColor.getD cf.color
             else cf.color)
      ∧ (cf.type = lightTypeEnum.Hemisphere →
          l.getConfig.skyColor = cf.skyColor ∧ l.getConfig.groundColor = cf.groundColor)
      ∧ (cf.type = lightTypeEnum.RectArea →
          l.getConfig.width = cf.width ∧ l.getConfig.height = cf.height) := by
  obtain ⟨ty, co, it, pos, sk, gr, wd, ht⟩ := cf
  simp only at hpos hkind hhemi hrect
  rcases List.length_eq_three.mp hpos with ⟨a, b, c, rfl⟩
  cases ty with
  | Ambient =>
    exact ⟨_, rfl, rfl, rfl, rfl, rfl, (by intro h; simp at h), (by intro h; simp at h)⟩
  | Directional =>
    exact ⟨_, rfl, rfl, rfl, rfl, rfl, (by intro h; simp at h), (by intro h; simp at h)⟩
  | Hemisphere =>
    obtain ⟨hsk, hgr⟩ := hhemi rfl
    rcases sk with _ | skv
    · simp at hsk
    rcases gr with _ | grv
    · simp at hgr
    exact ⟨_, rfl, rfl, rfl, rfl, rfl, fun _ => ⟨rfl, rfl⟩, (by intro h; simp at h)⟩
  | Point =>
    exact ⟨_, rfl, rfl, rfl, rfl, rfl, (by intro h; simp at h), (by intro h; simp at h)⟩
  | RectArea =>
    obtain ⟨hwd, hht⟩ := hrect rfl
    rcases wd with _ | wdv
    · simp at hwd
    rcases ht with _ | htv
    · simp at hht
    exact ⟨_, rfl, rfl, rfl, rfl, rfl, (by intro h; simp at h), fun _ => ⟨rfl, rfl⟩⟩
  | Spot =>
    exact ⟨_, rfl, rfl, rfl, rfl, rfl, (by intro h; simp at h), (by intro h; simp at h)⟩
  | Unknown => exact absurd rfl hkind

/-- Witness for C4 (amended) at a fully supplied Hemisphere config. -/
theorem light_roundtrip_amended_witness :
    ∃ l : Light, Light.create hemisphereMismatchConfig = Except.ok l
      ∧ l.getConfig.intensity = hemisphereMismatchConfig.intensity
      ∧ l.getConfig.position = hemisphereMismatchConfig.position
      ∧ (hemisphereMismatchConfig.type = lightTypeEnum.Hemisphere →
          l.getConfig.skyColor = hemisphereMismatchConfig.skyColor
          ∧ l.getConfig.groundColor = hemisphereMismatchConfig.groundColor) := by
  obtain ⟨l, h1, _, h3, h4, _, h6, _⟩ :=
    light_roundtrip_amended hemisphereMismatchConfig rfl (by decide)
      (fun _ => by decide) (fun h => absurd h (by decide))
  exact ⟨l, h1, h3, h4, h6⟩

/- ----------------------------------------------------------------- -/
/- Helper lemmas: association-list maps and scene children           -/
/- ----------------------------------------------------------------- -/

theorem mapGet_mapSet_self {α : Type} (k : String) (v : α) (m : List (String × α)) :
    mapGet k (mapSet k v m) = some v := by
  induction m with
  | nil => simp [mapSet, mapGet]
  | cons kv rest ih =>
    obtain ⟨k1, v1⟩ := kv
    by_cases h : k1 = k
    · subst h
      simp [mapSet, mapGet]
    · simp [mapSet, mapGet, h, ih]

theorem mapGet_mapSet_ne {α : Type} (k k2 : String) (hne : k2 ≠ k) (v : α)
    (m : List (String × α)) : mapGet k2 (mapSet k v m) = mapGet k2 m := by
  have hne2 : ¬k = k2 := fun h => hne h.symm
  induction m with
  | nil => simp [mapSet, mapGet, hne2]
  | cons kv rest ih =>
    obtain ⟨k1, v1⟩ := kv
    by_cases h : k1 = k
    · subst h
      simp [mapSet, mapGet, hne2]
    · simp [mapSet, mapGet, h, ih]

theorem mapGet_eq_none_of_not_mem {α : Type} (k : String) (m : List (String × α))
    (h : k ∉ m.map Prod.fst) : mapGet k m = none := by
  induction m with
  | nil => rfl
  | cons kv rest ih =>
    obtain ⟨k1, v1⟩ := kv
    simp only [List.map_cons, List.mem_cons] at h
    push_neg at h
    have h1 : ¬k1 = k := fun hh => h.1 hh.symm
    simp only [mapGet, if_neg h1]
    exact ih h.2

theorem mapGet_mapDelete_self {α : Type} (k : String) (m : List (String × α))
    (hnd : (m.map Prod.fst).Nodup) : mapGet k (mapDelete k m) = none := by
  induction m with
  | nil => rfl
  | cons kv rest ih =>
    obtain ⟨k1, v1⟩ := kv
    simp only [List.map_cons, List.nodup_cons] at hnd
    by_cases h : k1 = k
    · subst h
      rw [show mapDelete k1 ((k1, v1) :: rest) = rest from by simp [mapDelete]]
      exact mapGet_eq_none_of_not_mem k1 rest hnd.1
    · rw [show mapDelete k ((k1, v1) :: rest) = (k1, v1) :: mapDelete k rest from by
        simp [mapDelete, h]]
      rw [show mapGet k ((k1, v1) :: mapDelete k rest) = mapGet k (mapDelete k rest) from by
        simp [mapGet, h]]
      exact ih hnd.2

theorem mapGet_mapDelete_ne {α : Type} (k k2 : String) (hne : k2 ≠ k)
    (m : List (String × α)) : mapGet k2 (mapDelete k m) = mapGet k2 m := by
  induction m with
  | nil => rfl
  | cons kv rest ih =>
    obtain ⟨k1, v1⟩ := kv
    by_cases h : k1 = k
    · subst h
      have h2 : ¬k1 = k2 := fun hh => hne hh.symm
      simp [mapDelete, mapGet, h2]
    · simp [mapDelete, mapGet, h, ih]

theorem mem_keys_mapSet {α : Type} (k k2 : String) (v : α) (m : List (String × α))
    (h : k2 ∈ (mapSet k v m).map Prod.fst) : k2 = k ∨ k2 ∈ m.map Prod.fst := by
  induction m with
  | nil =>
    simp only [mapSet, List.map_cons, List.map_nil, List.mem_singleton] at h
    exact Or.inl h
  | cons kv rest ih =>
    obtain ⟨k1, v1⟩ := kv
    by_cases hk : k1 = k
    · subst hk
      rw [show mapSet k1 v ((k1, v1) :: rest) = (k1, v) :: rest from by simp [mapSet]] at h
      simp only [List.map_cons, List.mem_cons] at h
      rcases h with h | h
      · exact Or.inl h
      · exact Or.inr (by
          simp only [List.map_cons, List.mem_cons]
          exact Or.inr h)
    · rw [show mapSet k v ((k1, v1) :: rest) = (k1, v1) :: mapSet k v rest from by
        simp [mapSet, hk]] at h
      simp only [List.map_cons, List.mem_cons] at h
      rcases h with h | h
      · exact Or.inr (by
          simp only [List.map_cons, List.mem_cons]
          exact Or.inl h)
      · rcases ih h with h2 | h2
        · exact Or.inl h2
        · exact Or.inr (by
            simp only [List.map_cons, List.mem_cons]
            exact Or.inr h2)

theorem keys_mapSet_nodup {α : Type} (k : String) (v : α) (m : List (String × α))
    (h : (m.map Prod.fst).Nodup) : ((mapSet k v m).map Prod.fst).Nodup := by
  induction m with
  | nil => simp [mapSet]
  | cons kv rest ih =>
    obtain ⟨k1, v1⟩ := kv
    simp only [List.map_cons, List.nodup_cons] at h
    by_cases hk : k1 = k
    · subst hk
      rw [show mapSet k1 v ((k1, v1) :: rest) = (k1, v) :: rest from by simp [mapSet]]
      simp only [List.map_cons, List.nodup_cons]
      exact h
    · rw [show mapSet k v ((k1, v1) :: rest) = (k1, v1) :: mapSet k v rest from by
        simp [mapSet, hk]]
      simp only [List.map_cons, List.nodup_cons]
      refine ⟨?_, ih h.2⟩
      intro hmem
      rcases mem_keys_mapSet k k1 v rest hmem with h2 | h2
      · exact hk h2
      · exact h.1 h2

theorem mapDelete_sublist {α : Type} (k : String) (m : List (String × α)) :
    List.Sublist (mapDelete k m) m := by
  induction m with
  | nil => exact List.Sublist.refl []
  | cons kv rest ih =>
    obtain ⟨k1, v1⟩ := kv
    by_cases h : k1 = k
    · rw [show mapDelete k ((k1, v1) :: rest) = rest from by simp [mapDelete, h]]
      exact List.sublist_cons_self (k1, v1) rest
    · rw [show mapDelete k ((k1, v1) :: rest) = (k1, v1) :: mapDelete k rest from by
        simp [mapDelete, h]]
      exact List.Sublist.cons₂ (k1, v1) ih

theorem keys_mapDelete_nodup {α : Type} (k : String) (m : List (String × α))
    (h : (m.map Prod.fst).Nodup) : ((mapDelete k m).map Prod.fst).Nodup :=
  List.Nodup.sublist (List.Sublist.map Prod.fst (mapDelete_sublist k m)) h

theorem mapGet_mem {α : Type} (k : String) (m : List (String × α)) (v : α)
    (h : mapGet k m = some v) : (k, v) ∈ m := by
  induction m with
  | nil => simp [mapGet] at h
  | cons kv rest ih =>
    obtain ⟨k1, v1⟩ := kv
    by_cases hk : k1 = k
    · subst hk
      rw [show mapGet k1 ((k1, v1) :: rest) = some v1 from by simp [mapGet]] at h
      rw [Option.some_inj] at h
      subst h
      exact List.mem_cons_self _ _
    · rw [show mapGet k ((k1, v1) :: rest) = mapGet k rest from by simp [mapGet, hk]] at h
      exact List.mem_cons_of_mem _ (ih h)

theorem mem_sceneAdd (a id : Nat) (ch : List Nat) :
    a ∈ sceneAdd id ch ↔ (a ∈ ch ∨ a = id) := by
  unfold sceneAdd
  by_cases h : a = id
  · subst h
    simp
  · simp [List.mem_append, h, List.mem_erase_of_ne h]

theorem nodup_sceneAdd (id : Nat) (ch : List Nat) (h : ch.Nodup) :
    (sceneAdd id ch).Nodup := by
  unfold sceneAdd
  rw [List.nodup_append]
  refine ⟨h.erase id, List.nodup_singleton id, ?_⟩
  intro a ha hb
  rw [List.mem_singleton] at hb
  subst hb
  exact h.not_mem_erase ha

theorem light_ref_mem_refIds (s : ConstructState) (k : String) (l : LightRef)
    (id : Nat) (h1 : mapGet k s.lights = some l) (h2 : l.obj = some id) :
    id ∈ refIds s := by
  have hmem := mapGet_mem k s.lights l h1
  unfold refIds
  apply List.mem_append_left
  rw [List.reduceOption_mem_iff, ← h2]
  exact List.mem_map_of_mem (fun kv => kv.2.obj) hmem

theorem content_ref_mem_refIds (s : ConstructState) (k : String) (g : Nat)
    (h : mapGet k s.content = some g) : g ∈ refIds s := by
  have hmem := mapGet_mem k s.content g h
  unfold refIds
  apply List.mem_append_right
  exact List.mem_map_of_mem (fun kv => kv.2) hmem

theorem stepOp_preserves (s : ConstructState) (op : ConstructOp)
    (hInv : ConstructInv s) (hok : okOp s op = true) :
    ConstructInv (stepOp s op) := by
  obtain ⟨hLA, hCA, hLL, hLC, hCC, hKL, hKC, hSN⟩ := hInv
  cases op with
  | addLight key light =>
    cases hobj : light.obj with
    | none =>
      simp only [stepOp, hobj]
      refine ⟨?_, ?_, ?_, ?_, ?_, ?_, ?_, ?_⟩
      · intro k l id h1 h2
        by_cases hk : k = key
        · rw [hk, mapGet_mapSet_self, Option.some_inj] at h1
          rw [← h1, hobj] at h2
          exact Option.noConfusion h2
        · rw [mapGet_mapSet_ne key k hk] at h1
          exact hLA k l id h1 h2
      · intro k g h1
        exact hCA k g h1
      · intro k1 l1 id1 k2 l2 h1 ho1 h2 ho2
        by_cases hk1 : k1 = key
        · rw [hk1, mapGet_mapSet_self, Option.some_inj] at h1
          rw [← h1, hobj] at ho1
          exact Option.noConfusion ho1
        · by_cases hk2 : k2 = key
          · rw [hk2, mapGet_mapSet_self, Option.some_inj] at h2
            rw [← h2, hobj] at ho2
            exact Option.noConfusion ho2
          · rw [mapGet_mapSet_ne key k1 hk1] at h1
            rw [mapGet_mapSet_ne key k2 hk2] at h2
            exact hLL k1 l1 id1 k2 l2 h1 ho1 h2 ho2
      · intro k1 l1 id1 k2 h1 ho1 h2
        by_cases hk1 : k1 = key
        · rw [hk1, mapGet_mapSet_self, Option.some_inj] at h1
          rw [← h1, hobj] at ho1
          exact Option.noConfusion ho1
        · rw [mapGet_mapSet_ne key k1 hk1] at h1
          exact hLC k1 l1 id1 k2 h1 ho1 h2
      · intro k1 k2 g h1 h2
        exact hCC k1 k2 g h1 h2
      · exact keys_mapSet_nodup key light s.lights hKL
      · exact hKC
      · exact hSN
    | some id =>
      have hid : id ∉ refIds s := by
        simp only [okOp, hobj] at hok
        simpa using hok
      simp only [stepOp, hobj]
      refine ⟨?_, ?_, ?_, ?_, ?_, ?_, ?_, ?_⟩
      · intro k l id0 h1 h2
        by_cases hk : k = key
        · rw [hk, mapGet_mapSet_self, Option.some_inj] at h1
          rw [← h1, hobj, Option.some_inj] at h2
          rw [← h2]
          exact (mem_sceneAdd id id s.sceneChildren).mpr (Or.inr rfl)
        · rw [mapGet_mapSet_ne key k hk] at h1
          exact (mem_sceneAdd id0 id s.sceneChildren).mpr (Or.inl (hLA k l id0 h1 h2))
      · intro k g h1
        exact (mem_sceneAdd g id s.sceneChildren).mpr (Or.inl (hCA k g h1))
      · intro k1 l1 id1 k2 l2 h1 ho1 h2 ho2
        by_cases hk1 : k1 = key <;> by_cases hk2 : k2 = key
        · rw [hk1, hk2]
        · rw [hk1, mapGet_mapSet_self, Option.some_inj] at h1
          rw [← h1, hobj, Option.some_inj] at ho1
          rw [mapGet_mapSet_ne key k2 hk2] at h2
          rw [← ho1] at ho2
          exact absurd (light_ref_mem_refIds s k2 l2 id h2 ho2) hid
        · rw [hk2, mapGet_mapSet_self, Option.some_inj] at h2
          rw [← h2, hobj, Option.some_inj] at ho2
          rw [mapGet_mapSet_ne key k1 hk1] at h1
          rw [← ho2] at ho1
          exact absurd (light_ref_mem_refIds s k1 l1 id h1 ho1) hid
        · rw [mapGet_mapSet_ne key k1 hk1] at h1
          rw [mapGet_mapSet_ne key k2 hk2] at h2
          exact hLL k1 l1 id1 k2 l2 h1 ho1 h2 ho2
      · intro k1 l1 id1 k2 h1 ho1 h2
        by_cases hk1 : k1 = key
        · rw [hk1, mapGet_mapSet_self, Option.some_inj] at h1
          rw [← h1, hobj, Option.some_inj] at ho1
          rw [← ho1] at h2
          exact absurd (content_ref_mem_refIds s k2 id h2) hid
        · rw [mapGet_mapSet_ne key k1 hk1] at h1
          exact hLC k1 l1 id1 k2 h1 ho1 h2
      · intro k1 k2 g h1 h2
        exact hCC k1 k2 g h1 h2
      · exact keys_mapSet_nodup key light s.lights hKL
      · exact hKC
      · exact nodup_sceneAdd id s.sceneChildren hSN
  | addContent key g =>
    have hid : g ∉ refIds s := by
      simp only [okOp] at hok
      simpa using hok
    simp only [stepOp]
    refine ⟨?_, ?_, ?_, ?_, ?_, ?_, ?_, ?_⟩
    · intro k l id0 h1 h2
      exact (mem_sceneAdd id0 g s.sceneChildren).mpr (Or.inl (hLA k l id0 h1 h2))
    · intro k g0 h1
      by_cases hk : k = key
      · rw [hk, mapGet_mapSet_self, Option.some_inj] at h1
        rw [← h1]
        exact (mem_sceneAdd g g s.sceneChildren).mpr (Or.inr rfl)
      · rw [mapGet_mapSet_ne key k hk] at h1
        exact (mem_sceneAdd g0 g s.sceneChildren).mpr (Or.inl (hCA k g0 h1))
    · intro k1 l1 id1 k2 l2 h1 ho1 h2 ho2
      exact hLL k1 l1 id1 k2 l2 h1 ho1 h2 ho2
    · intro k1 l1 id1 k2 h1 ho1 h2
      by_cases hk2 : k2 = key
      · rw [hk2, mapGet_mapSet_self, Option.some_inj] at h2
        rw [← h2] at ho1
        exact absurd (light_ref_mem_refIds s k1 l1 g h1 ho1) hid
      · rw [mapGet_mapSet_ne key k2 hk2] at h2
        exact hLC k1 l1 id1 k2 h1 ho1 h2
    · intro k1 k2 g0 h1 h2
      by_cases hk1 : k1 = key <;> by_cases hk2 : k2 = key
      · rw [hk1, hk2]
      · rw [hk1, mapGet_mapSet_self, Option.some_inj] at h1
        rw [mapGet_mapSet_ne key k2 hk2] at h2
        rw [← h1] at h2
        exact absurd (content_ref_mem_refIds s k2 g h2) hid
      · rw [hk2, mapGet_mapSet_self, Option.some_inj] at h2
        rw [mapGet_mapSet_ne key k1 hk1] at h1
        rw [← h2] at h1
        exact absurd (content_ref_mem_refIds s k1 g h1) hid
      · rw [mapGet_mapSet_ne key k1 hk1] at h1
        rw [mapGet_mapSet_ne key k2 hk2] at h2
        exact hCC k1 k2 g0 h1 h2
    · exact hKL
    · exact keys_mapSet_nodup key g s.content hKC
    · exact nodup_sceneAdd g s.sceneChildren hSN
  | deleteLight key =>
    cases hget : mapGet key s.lights with
    | none =>
      simp only [stepOp, hget]
      exact ⟨hLA, hCA, hLL, hLC, hCC, hKL, hKC, hSN⟩
    | some l =>
      cases hobj : l.obj with
      | none =>
        simp only [stepOp, hget, hobj]
        exact ⟨hLA, hCA, hLL, hLC, hCC, hKL, hKC, hSN⟩
      | some id =>
        simp only [stepOp, hget, hobj, sceneRemove]
        refine ⟨?_, ?_, ?_, ?_, ?_, ?_, ?_, ?_⟩
        · intro k l0 id0 h1 h2
          by_cases hk : k = key
          · rw [hk, mapGet_mapDelete_self key s.lights hKL] at h1
            exact Option.noConfusion h1
          · rw [mapGet_mapDelete_ne key k hk] at h1
            have hne : id0 ≠ id := by
              intro he
              rw [he] at h2
              exact hk (hLL k l0 id key l h1 h2 hget hobj)
            exact (List.mem_erase_of_ne hne).mpr (hLA k l0 id0 h1 h2)
        · intro k g h1
          have hne : g ≠ id := by
            intro he
            rw [he] at h1
            exact hLC key l id k hget hobj h1
          exact (List.mem_erase_of_ne hne).mpr (hCA k g h1)
        · intro k1 l1 id1 k2 l2 h1 ho1 h2 ho2
          by_cases hk1 : k1 = key
          · rw [hk1, mapGet_mapDelete_self key s.lights hKL] at h1
            exact Option.noConfusion h1
          · by_cases hk2 : k2 = key
            · rw [hk2, mapGet_mapDelete_self key s.lights hKL] at h2
              exact Option.noConfusion h2
            · rw [mapGet_mapDelete_ne key k1 hk1] at h1
              rw [mapGet_mapDelete_ne key k2 hk2] at h2
              exact hLL k1 l1 id1 k2 l2 h1 ho1 h2 ho2
        · intro k1 l1 id1 k2 h1 ho1 h2
          by_cases hk1 : k1 = key
          · rw [hk1, mapGet_mapDelete_self key s.lights hKL] at h1
            exact Option.noConfusion h1
          · rw [mapGet_mapDelete_ne key k1 hk1] at h1
            exact hLC k1 l1 id1 k2 h1 ho1 h2
        · intro k1 k2 g h1 h2
          exact hCC k1 k2 g h1 h2
        · exact keys_mapDelete_nodup key s.lights hKL
        · exact hKC
        · exact hSN.erase id
  | deleteContent key =>
    cases hget : mapGet key s.content with
    | none =>
      simp only [stepOp, hget]
      exact ⟨hLA, hCA, hLL, hLC, hCC, hKL, hKC, hSN⟩
    | some g =>
      simp only [stepOp, hget, sceneRemove]
      refine ⟨?_, ?_, ?_, ?_, ?_, ?_, ?_, ?_⟩
      · intro k l0 id0 h1 h2
        have hne : id0 ≠ g := by
          intro he
          rw [he] at h2
          exact hLC k l0 g key h1 h2 hget
        exact (List.mem_erase_of_ne hne).mpr (hLA k l0 id0 h1 h2)
      · intro k g0 h1
        by_cases hk : k = key
        · rw [hk, mapGet_mapDelete_self key s.content hKC] at h1
          exact Option.noConfusion h1
        · rw [mapGet_mapDelete_ne key k hk] at h1
          have hne : g0 ≠ g := by
            intro he
            rw [he] at h1
            exact hk (hCC k key g h1 hget)
          exact (List.mem_erase_of_ne hne).mpr (hCA k g0 h1)
      · intro k1 l1 id1 k2 l2 h1 ho1 h2 ho2
        exact hLL k1 l1 id1 k2 l2 h1 ho1 h2 ho2
      · intro k1 l1 id1 k2 h1 ho1 h2
        by_cases hk2 : k2 = key
        · rw [hk2, mapGet_mapDelete_self key s.content hKC] at h2
          exact Option.noConfusion h2
        · rw [mapGet_mapDelete_ne key k2 hk2] at h2
          exact hLC k1 l1 id1 k2 h1 ho1 h2
      · intro k1 k2 g0 h1 h2
        by_cases hk1 : k1 = key
        · rw [hk1, mapGet_mapDelete_self key s.content hKC] at h1
          exact Option.noConfusion h1
        · by_cases hk2 : k2 = key
          · rw [hk2, mapGet_mapDelete_self key s.content hKC] at h2
            exact Option.noConfusion h2
          · rw [mapGet_mapDelete_ne key k1 hk1] at h1
            rw [mapGet_mapDelete_ne key k2 hk2] at h2
            exact hCC k1 k2 g0 h1 h2
      · exact hKL
      · exact keys_mapDelete_nodup key s.content hKC
      · exact hSN.erase g

theorem runOps_preserves (ops : List ConstructOp) (s : ConstructState)
    (hInv : ConstructInv s) (hok : okOps s ops = true) :
    ConstructInv (runOps s ops) := by
  induction ops generalizing s with
  | nil => exact hInv
  | cons op ops ih =>
    simp only [okOps, Bool.and_eq_true] at hok
    exact ih (stepOp s op) (stepOp_preserves s op hInv hok.1) hok.2

theorem initialConstruct_inv : ConstructInv initialConstruct := by
  refine ⟨?_, ?_, ?_, ?_, ?_, ?_, ?_, ?_⟩
  · intro k l id h1 h2
    simp only [initialConstruct, mapGet] at h1
    by_cases hk : "standard" = k
    · rw [if_pos hk] at h1
      rw [Option.some_inj] at h1
      subst h1
      simp only at h2
      rw [Option.some_inj] at h2
      subst h2
      simp [initialConstruct]
    · rw [if_neg hk] at h1
      exact Option.noConfusion h1
  · intro k g h1
    simp only [initialConstruct, mapGet] at h1
    exact Option.noConfusion h1
  · intro k1 l1 id1 k2 l2 h1 ho1 h2 ho2
    simp only [initialConstruct, mapGet] at h1 h2
    by_cases hk1 : "standard" = k1
    · by_cases hk2 : "standard" = k2
      · rw [← hk1, ← hk2]
      · rw [if_neg hk2] at h2
        exact Option.noConfusion h2
    · rw [if_neg hk1] at h1
      exact Option.noConfusion h1
  · intro k1 l1 id1 k2 h1 ho1 h2
    simp only [initialConstruct, mapGet] at h2
    exact Option.noConfusion h2
  · intro k1 k2 g h1 h2
    simp only [initialConstruct, mapGet] at h1
    exact Option.noConfusion h1
  · simp [initialConstruct]
  · simp [initialConstruct]
  · simp [initialConstruct]

/- ----------------------------------------------------------------- -/
/- Claim C1: registry/scene attachment invariant (corrected)         -/
/- ----------------------------------------------------------------- -/

/-- C1 counterexample: `addLight` registers a light whose `getLight()` is
`undefined` in the mapping without attaching anything for it to the scene
root, and `deleteLight` then refuses to remove the entry — the state is
unchanged, so removal neither deletes the mapping entry nor detaches a
node.  The mapping thus holds an entry that is not attached to the scene
root, after a single `addLight` on the freshly prepared construct. -/
theorem construct_registry_counterexample :
    mapGet "k" (stepOp initialConstruct (ConstructOp.addLight "k" unknownKindLight)).lights
      = some unknownKindLight
    ∧ unknownKindLight.obj = none
    ∧ stepOp (stepOp initialConstruct (ConstructOp.addLight "k" unknownKindLight))
        (ConstructOp.deleteLight "k")
      = stepOp initialConstruct (ConstructOp.addLight "k" unknownKindLight)
    ∧ mapGet "k" (stepOp (stepOp initialConstruct (ConstructOp.addLight "k" unknownKindLight))
        (ConstructOp.deleteLight "k")).lights
      = some unknownKindLight := by
  refine ⟨by decide, rfl, by decide, by decide⟩

/-- C1 amended: starting from the freshly prepared construct, provided no
add operation registers a node already referenced by another registry
entry, then after every sequence of addLight / deleteLight / addContent /
deleteContent: every light entry whose underlying light exists is attached
to the scene root and every content entry is attached; deleting a light
entry whose light exists removes the mapping entry and detaches its node
together; deleting a light entry whose light is undefined leaves the whole
state unchanged (it neither removes the entry nor touches the scene); and
deleting a content entry removes mapping entry and node together. -/
theorem construct_registry_amended (ops : List ConstructOp)
    (hok : okOps initialConstruct ops = true) :
    (∀ k l id, mapGet k (runOps initialConstruct ops).lights = some l →
        l.obj = some id → id ∈ (runOps initialConstruct ops).sceneChildren)
    ∧ (∀ k g, mapGet k (runOps initialConstruct ops).content = some g →
        g ∈ (runOps initialConstruct ops).sceneChildren)
    ∧ (∀ k l id, mapGet k (runOps initialConstruct ops).lights = some l →
        l.obj = some id →
        mapGet k (stepOp (runOps initialConstruct ops)
            (ConstructOp.deleteLight k)).lights = none
        ∧ id ∉ (stepOp (runOps initialConstruct ops)
            (ConstructOp.deleteLight k)).sceneChildren)
    ∧ (∀ k l, mapGet k (runOps initialConstruct ops).lights = some l →
        l.obj = none →
        stepOp (runOps initialConstruct ops) (ConstructOp.deleteLight k)
          = runOps initialConstruct ops)
    ∧ (∀ k g, mapGet k (runOps initialConstruct ops).content = some g →
        mapGet k (stepOp (runOps initialConstruct ops)
            (ConstructOp.deleteContent k)).content = none
        ∧ g ∉ (stepOp (runOps initialConstruct ops)
            (ConstructOp.deleteContent k)).sceneChildren) := by
  obtain ⟨hLA, hCA, hLL, hLC, hCC, hKL, hKC, hSN⟩ :=
    runOps_preserves ops initialConstruct initialConstruct_inv hok
  refine ⟨hLA, hCA, ?_, ?_, ?_⟩
  · intro k l id h1 h2
    constructor
    · simp only [stepOp, h1, h2]
      exact mapGet_mapDelete_self k _ hKL
    · simp only [stepOp, h1, h2, sceneRemove]
      exact hSN.not_mem_erase
  · intro k l h1 h2
    simp only [stepOp, h1, h2]
  · intro k g h1
    constructor
    · simp only [stepOp, h1]
      exact mapGet_mapDelete_self k _ hKC
    · simp only [stepOp, h1, sceneRemove]
      exact hSN.not_mem_erase

/-- Witness for C1 (amended): after the concrete alias-free sequence both
registered nodes are attached to the scene root. -/
theorem construct_registry_amended_witness :
    5 ∈ (runOps initialConstruct demoOps).sceneChildren
    ∧ 9 ∈ (runOps initialConstruct demoOps).sceneChildren := by
  have h := construct_registry_amended demoOps (by decide)
  exact ⟨h.1 "key1" { obj := some 5, helper := none } 5 (by decide) rfl,
    h.2.1 "c" 9 (by decide)⟩
